import Mathlib

/-! Formal model of the core of node-google-play (lib/api.js): the request
fingerprint computation (cachedGetResolver), the lodash memoization cache with
prefetch seeding and TTL timers, the login flow, the auth response parser
(responseToObj), the constructor argument checks, and the APK download request
construction.  The JavaScript semantics the source relies on (lodash 2.x
memoize/reduce, util.format, querystring.parse, json-stable-stringify, plain
JS objects) are embedded as executable Lean functions, so each definition
mirrors the corresponding source function or library call line by line. -/

namespace GPlay

/-- Lookup in a JavaScript-object-like association list.  Bindings are kept
unique by `alset`, so the first match is the binding, mirroring JS property
read `obj[k]` (undefined is `none`). -/
def alget {κ α : Type} [DecidableEq κ] : List (κ × α) → κ → Option α
  | [], _ => none
  | (k, v) :: rest, key => if k = key then some v else alget rest key

/-- Property write `obj[k] = v` on a JS object: update the existing binding in
place, else append a new one (JS keeps first-insertion order). -/
def alset {κ α : Type} [DecidableEq κ] (m : List (κ × α)) (key : κ) (v : α) :
    List (κ × α) :=
  match m with
  | [] => [(key, v)]
  | (k, w) :: rest => if k = key then (key, v) :: rest else (k, w) :: alset rest key v

/-- Property delete `delete obj[k]` on a JS object. -/
def aldel {κ α : Type} [DecidableEq κ] : List (κ × α) → κ → List (κ × α)
  | [], _ => []
  | (k, w) :: rest, key => if k = key then aldel rest key else (k, w) :: aldel rest key

/-- Accumulator for `splitOnChar`: splits a character list at every occurrence
of the separator, like the JS `String.prototype.split` with a one-character
separator (so the empty string splits to `[""]`). -/
def splitOnCharAux (sep : Char) : List Char → List Char → List (List Char)
  | [], acc => [acc.reverse]
  | c :: rest, acc =>
    if c = sep then acc.reverse :: splitOnCharAux sep rest []
    else splitOnCharAux sep rest (c :: acc)

/-- JS `s.split(sep)` for a single-character separator. -/
def splitOnChar (sep : Char) (s : String) : List String :=
  (splitOnCharAux sep s.data []).map String.mk

/-- JS `String.prototype.toLowerCase` (ASCII range; the keys the source
lowercases are ASCII header names like `Auth`). -/
def toLowerStr (s : String) : String := String.mk (s.data.map Char.toLower)

/-- Strict lexicographic order on character lists by code point, the order the
default JS `Array.prototype.sort` uses on the (BMP) strings at issue. -/
def strLtB : List Char → List Char → Bool
  | [], [] => false
  | [], _ :: _ => true
  | _ :: _, [] => false
  | a :: as, b :: bs =>
    if a.toNat < b.toNat then true
    else if b.toNat < a.toNat then false
    else strLtB as bs

/-- Order on query entries by key, used to model json-stable-stringify's
`Object.keys(node).sort()`. -/
def keyLe (a b : String × String) : Prop := strLtB b.1.data a.1.data = false

instance : DecidableRel keyLe := fun a b =>
  inferInstanceAs (Decidable (strLtB b.1.data a.1.data = false))

/-- Strict key order used to derive uniqueness of the sorted entry list. -/
def keyLt (a b : String × String) : Prop := strLtB a.1.data b.1.data = true

/-- Sorted query entries, as json-stable-stringify enumerates them. -/
def sortEntries (q : List (String × String)) : List (String × String) :=
  List.insertionSort keyLe q

/-- Hex digit as produced by `JSON.stringify`'s `\u00XX` escapes (lowercase). -/
def hexDigit (n : Nat) : Char :=
  if n < 10 then Char.ofNat (48 + n) else Char.ofNat (87 + n)

/-- Numeric value of a lowercase hex digit. -/
def hexVal (c : Char) : Nat :=
  if 97 ≤ c.toNat then c.toNat - 87 else c.toNat - 48

/-- Escape of one character inside a JSON string literal, as `JSON.stringify`
produces it (quote and backslash escaped, named control escapes, `\u00XX` for
the remaining control characters, everything else verbatim). -/
def escChar (c : Char) : List Char :=
  if c = '"' then ['\\', '"']
  else if c = '\\' then ['\\', '\\']
  else if c = '\x08' then ['\\', 'b']
  else if c = '\x0c' then ['\\', 'f']
  else if c = '\n' then ['\\', 'n']
  else if c = '\r' then ['\\', 'r']
  else if c = '\t' then ['\\', 't']
  else if c.toNat < 32 then
    ['\\', 'u', '0', '0', hexDigit (c.toNat / 16), hexDigit (c.toNat % 16)]
  else [c]

/-- Escaped body of a JSON string literal. -/
def escStr : List Char → List Char
  | [] => []
  | c :: rest => escChar c ++ escStr rest

/-- JSON string literal `JSON.stringify(s)` for a string `s`. -/
def quoteL (s : List Char) : List Char := '"' :: (escStr s ++ ['"'])

/-- One `"key":"value"` member of the serialized object. -/
def entryL (e : String × String) : List Char :=
  quoteL e.1.data ++ ':' :: quoteL e.2.data

/-- Comma-join of the serialized members, `array.join(',')`. -/
def joinComma : List (List Char) → List Char
  | [] => []
  | [x] => x
  | x :: y :: rest => x ++ ',' :: joinComma (y :: rest)

/-- Model of `require('json-stable-stringify')` on a flat JS object whose
values are strings: members rendered with `JSON.stringify` and joined in
sorted key order inside braces. -/
def stableStringify (q : List (String × String)) : String :=
  String.mk ('\x7b' :: (joinComma ((sortEntries q).map entryL) ++ ['\x7d']))

/-- Value of the `datapost` argument at the three kinds of call sites of
`cachedGetResolver`: absent (GET operations pass no body, `undefined` in JS),
the literal `false` passed by `_tryHandlePrefetch`, or the POST body string. -/
inductive DataPost
  | undef
  | fals
  | str (s : String)
deriving DecidableEq

/-- Rendering of the `datapost` argument by `util.format("%s", datapost)`. -/
def DataPost.render : DataPost → String
  | .undef => "undefined"
  | .fals => "false"
  | .str s => s

/-- The fingerprint from `cachedGetResolver(path, query, datapost)`:
`fmt("%s|%s|post=%s", path, stringify(query), datapost)`.  Query values are
already strings at every call site, so the `v.toString()` coercion in the
source's `_.reduce` is the identity here. -/
def cachedGetResolver (path : String) (query : List (String × String))
    (datapost : DataPost) : String :=
  path ++ "|" ++ stableStringify query ++ "|post=" ++ datapost.render

/-- Partial inverse of `escChar` used to prove the escape unambiguous: reads
one escaped character off the front of a JSON string body, returning its code
point and the rest (nothing on an unescaped quote or a malformed escape). -/
def unesc1 : List Char → Option (Nat × List Char)
  | [] => none
  | c :: r =>
    if c = '"' then none
    else if c = '\\' then
      match r with
      | [] => none
      | d :: r2 =>
        if d = '"' then some (34, r2)
        else if d = '\\' then some (92, r2)
        else if d = 'b' then some (8, r2)
        else if d = 'f' then some (12, r2)
        else if d = 'n' then some (10, r2)
        else if d = 'r' then some (13, r2)
        else if d = 't' then some (9, r2)
        else if d = 'u' then
          match r2 with
          | z1 :: z2 :: h1 :: h2 :: r3 =>
            if z1 = '0' ∧ z2 = '0' then some (16 * hexVal h1 + hexVal h2, r3)
            else none
          | _ => none
        else none
    else some (c.toNat, r)

/-- Loop of `responseToObj`: `_.reduce` over the lines with the
`assert(pair.length == 2, ...)` modelled as an error result (the JS assert
throws at the first bad line, aborting the whole reduce). -/
def responseToObjGo (obj : List (String × String)) :
    List String → Except String (List (String × String))
  | [] => .ok obj
  | line :: rest =>
    match splitOnChar '=' line with
    | [k, v] => responseToObjGo (alset obj (toLowerStr k) v) rest
    | _ => .error ("expected list of pairs from server")

/-- Model of the exported `responseToObj(lines)`: split on newlines, split each
line on `=`, assert exactly two parts, store `obj[pair[0].toLowerCase()] =
pair[1]`.  An `assert` failure is the `.error` case. -/
def responseToObj (lines : String) : Except String (List (String × String)) :=
  responseToObjGo [] (splitOnChar '\n' lines)

/-- Parse of a single `KEY=value` line as `responseToObj` stores it, when the
line splits into exactly two parts. -/
def lineParse (line : String) : Option (String × String) :=
  match splitOnChar '=' line with
  | [k, v] => some (toLowerStr k, v)
  | _ => none

/-- Well-formed key/value pairs of an auth response body, line by line (used to
state which lines `responseToObj` accepts). -/
def parsedPairs (s : String) : List (String × String) :=
  (splitOnChar '\n' s).filterMap lineParse

/-- Stubbed HTTP response the login callback receives from
`request.postAsync`. -/
structure HttpResponse where
  statusCode : Nat
  contentType : String
  body : String
deriving DecidableEq

/-- Outcome of one `login()` call: the `LoginError` thrown on a non-200
status (carrying the raw body), an `assert` failure, the generic
`Error('expected auth in server response')`, or success. -/
inductive LoginOutcome
  | loginError (raw : String)
  | assertionFailed (msg : String)
  | genericError (msg : String)
  | success
deriving DecidableEq

/-- Model of `login()` applied to the stubbed auth response: returns the
outcome together with the `authToken` member after the call (the token is
assigned only on the success path, where JS requires `response.auth` to be
truthy, i.e. a nonempty string). -/
def login (authToken : Option String) (res : HttpResponse) :
    LoginOutcome × Option String :=
  if res.statusCode ≠ 200 then (.loginError res.body, authToken)
  else if res.contentType ≠ "text/plain; charset=utf-8" then
    (.assertionFailed ("utf8 string body"), authToken)
  else
    match responseToObj res.body with
    | .error m => (.assertionFailed m, authToken)
    | .ok obj =>
      match alget obj ("auth") with
      | none => (.genericError ("expected auth in server response"), authToken)
      | some v =>
        if v = "" then (.genericError ("expected auth in server response"), authToken)
        else (.success, some v)

/-- Constructor argument as JavaScript sees it: `undefined`, `null`, or a
string. -/
inductive CtorArg
  | undef
  | null
  | strv (s : String)
deriving DecidableEq

/-- JS truthiness of a constructor argument (`undefined`, `null` and the empty
string are falsy). -/
def ctorFalsy : CtorArg → Bool
  | .undef => true
  | .null => true
  | .strv s => s == ""

/-- The default `androidId = androidId || null` on line 69. -/
def jsOrNull (a : CtorArg) : CtorArg := if ctorFalsy a then .null else a

/-- Model of the `GooglePlay` constructor's argument validation: the
`androidId || null` coercion followed by the three `getOrElseThrow` checks,
each of which throws exactly on `undefined`.  Returns the effective
`androidId` on success. -/
def googlePlayInit (username password androidId : CtorArg) :
    Except String CtorArg :=
  let aid := jsOrNull androidId
  if username = .undef then .error ("Require username")
  else if password = .undef then .error ("Require password")
  else if aid = .undef then .error ("Require Android ID")
  else .ok aid

/-- One download auth cookie from a download grant. -/
structure Cookie where
  name : String
  value : String
deriving DecidableEq

/-- Argument value as passed around `_prepCookies` in JS: `undefined`, a
cookie array, or a URL string. -/
inductive JsVal
  | undef
  | arrCookies (cs : List Cookie)
  | strv (s : String)
deriving DecidableEq

/-- Cookie jar contents: each `jar.setCookie(request.cookie(asStr), url)` call
recorded as the cookie string together with the url argument it was given. -/
structure CookieJar where
  entries : List (String × JsVal)
deriving DecidableEq

/-- Model of `_prepCookies(url, cookies)`: `_.reduce` over `cookies` building
the jar with `fmt("%s=%s", cookie.name, cookie.value)`.  A lodash reduce over
`undefined` (or any non-collection) just returns the accumulator, the empty
jar. -/
def prepCookies (url : JsVal) (cookies : JsVal) : CookieJar :=
  match cookies with
  | .arrCookies cs => ⟨cs.map fun c => (c.name ++ "=" ++ c.value, url)⟩
  | _ => ⟨[]⟩

/-- A download grant: URL plus ordered download auth cookies, as
`getDownloadInfo` returns it. -/
structure DownloadGrant where
  url : String
  cookies : List Cookie
deriving DecidableEq

/-- The GET request `downloadApk` finally issues. -/
structure DownloadRequest where
  url : String
  jar : CookieJar
  userAgent : String
deriving DecidableEq

/-- The fixed download-manager user agent constant. -/
def DOWNLOAD_MANAGER_USER_AGENT : String :=
  "AndroidDownloadManager/4.2.2 (Linux; U; Android 4.2.2; Galaxy Nexus Build/JDQ39)"

/-- Model of the request construction in `downloadApk` after the grant is
available: the source calls `_prepCookies(res.cookies)` with a single
argument, so the grant's cookie array is bound to the `url` parameter and the
`cookies` parameter is `undefined`. -/
def downloadApkRequest (grant : DownloadGrant) : DownloadRequest :=
  { url := grant.url
    jar := prepCookies (.arrCookies grant.cookies) .undef
    userAgent := DOWNLOAD_MANAGER_USER_AGENT }

/-- Eventual outcome of the transport promise behind one request: the raw
body on HTTP 200 (abstracted by an identifier), or the `RequestError`
rejection on any other status. -/
inductive Outcome
  | ok (body : Nat)
  | err (msg : String)
deriving DecidableEq

/-- State of the memoization layer around `_executeRequestApi2` when
`USE_CACHE` holds: the lodash `memoized.cache` plain object (fingerprint to
promise), the identity-to-outcome table for the promises created so far, the
pending `setTimeout` deletions (absolute fire time and cache key), the number
of underlying transport calls made, a fresh-promise counter, and the clock. -/
structure EngineState where
  cache : List (String × Nat)
  futures : List (Nat × Outcome)
  timers : List (Nat × String)
  transportCalls : Nat
  nextId : Nat
  now : Nat
deriving DecidableEq

/-- Fresh engine state. -/
def initState : EngineState := ⟨[], [], [], 0, 0, 0⟩

/-- Model of one call to `memoizedExecuteRequestApi2` (the `USE_CACHE` wrap of
`_executeRequestApi2` by `_.memoize` keyed with `cachedGetResolver`): on a
key already in `memoized.cache` the stored promise is returned and nothing
else happens; otherwise the underlying function runs (one transport call,
whose eventual outcome is the `result` argument supplied by the network
environment) and its promise is stored under the key before being returned. -/
def memoCall (st : EngineState) (path : String) (query : List (String × String))
    (datapost : DataPost) (result : Outcome) : Nat × EngineState :=
  let key := cachedGetResolver path query datapost
  match alget st.cache key with
  | some fid => (fid, st)
  | none =>
    (st.nextId,
      { st with
        cache := alset st.cache key st.nextId
        futures := alset st.futures st.nextId result
        transportCalls := st.transportCalls + 1
        nextId := st.nextId + 1 })

/-- The regex `/(.*)\?(.*)/` of `_tryHandlePrefetch`: with greedy groups it
splits the url at its last question mark, failing when there is none. -/
def splitAtLastQ (url : String) : Option (String × String) :=
  match (splitOnCharAux '?' url.data []).map String.mk with
  | [] => none
  | [_] => none
  | p :: q :: rest =>
    some (((q :: rest).dropLast).foldl (fun a b => a ++ "?" ++ b) p,
      (q :: rest).getLast (by simp))

/-- Model of `querystring.parse` on the query strings at issue: split on `&`,
then each pair at its first `=` (no percent-escape sequences occur in the
prefetch urls the source handles, so decoding is the identity here). -/
def qsParse (s : String) : List (String × String) :=
  (splitOnChar '&' s).map fun kv =>
    match splitOnChar '=' kv with
    | [] => ("", "")
    | [k] => (k, "")
    | k :: v1 :: rest => (k, rest.foldl (fun a b => a ++ "=" ++ b) v1)

/-- Own or inherited properties of the memoized function object itself whose
values are truthy: the guard in `_tryHandlePrefetch` reads
`memoizedExecuteRequestApi2[cacheKey]` (not `...cache[cacheKey]`), a property
of the function object, and only its object-valued properties (`cache`,
`prototype`) are truthy — `length` is 0, `name` is empty, `caller` and
`arguments` are null on a non-executing function. -/
def memoFnTruthyProps : List String := ["cache", "prototype"]

/-- Model of one iteration of `_tryHandlePrefetch` for a prefetch entry with
the given url, embedded response (abstracted by `resp`) and `ttl`: parse the
url (skip when the regex fails), compute the fingerprint with `datapost =
false`, return early when the function-object property read is truthy,
otherwise store `Promise.resolve(entry.response)` — a fresh promise — under
the key and, when `ttl` is truthy, schedule a `setTimeout` deletion of the
key after `ttl`. -/
def seedPrefetchEntry (st : EngineState) (url : String) (resp : Nat) (ttl : Nat) :
    EngineState :=
  match splitAtLastQ url with
  | none => st
  | some (path, qstr) =>
    let key := cachedGetResolver path (qsParse qstr) .fals
    if memoFnTruthyProps.contains key then st
    else
      let st2 : EngineState :=
        { st with
          cache := alset st.cache key st.nextId
          futures := alset st.futures st.nextId (.ok resp)
          nextId := st.nextId + 1 }
      if ttl ≠ 0 then { st2 with timers := st2.timers ++ [(st.now + ttl, key)] }
      else st2

/-- Clock advance to absolute time `t`: every pending `setTimeout` whose fire
time has been reached runs its callback `delete memoized.cache[cacheKey]`;
the rest stay pending. -/
def tick (st : EngineState) (t : Nat) : EngineState :=
  { st with
    now := t
    cache := ((st.timers.filter fun e => e.1 ≤ t).foldl
      (fun c e => aldel c e.2) st.cache)
    timers := st.timers.filter fun e => ¬ e.1 ≤ t }

theorem alget_alset_self {κ α : Type} [DecidableEq κ] (m : List (κ × α)) (k : κ) (v : α) :
    alget (alset m k v) k = some v := by
  induction m with
  | nil => simp [alget, alset]
  | cons e rest ih =>
    obtain ⟨k2, w⟩ := e
    by_cases h : k2 = k
    · subst h; simp [alget, alset]
    · simp [alget, alset, h, ih]

theorem alget_alset_ne {κ α : Type} [DecidableEq κ] (m : List (κ × α)) (k k2 : κ) (v : α)
    (h : k2 ≠ k) : alget (alset m k v) k2 = alget m k2 := by
  induction m with
  | nil => simp [alget, alset, Ne.symm h]
  | cons e rest ih =>
    obtain ⟨k3, w⟩ := e
    by_cases h3 : k3 = k
    · subst h3
      simp [alget, alset, Ne.symm h]
    · by_cases h4 : k3 = k2 <;> simp [alget, alset, h3, h4, ih, h]

theorem alget_aldel {κ α : Type} [DecidableEq κ] (m : List (κ × α)) (k k2 : κ) :
    alget (aldel m k2) k = if k = k2 then none else alget m k := by
  induction m with
  | nil => simp [alget, aldel]
  | cons e rest ih =>
    obtain ⟨k3, w⟩ := e
    by_cases h3 : k3 = k2
    · rw [h3]
      have hd : aldel ((k2, w) :: rest) k2 = aldel rest k2 := by simp [aldel]
      rw [hd, ih]
      by_cases h4 : k = k2
      · simp [h4]
      · simp [alget, h4, Ne.symm h4]
    · have hd : aldel ((k3, w) :: rest) k2 = (k3, w) :: aldel rest k2 := by simp [aldel, h3]
      rw [hd]
      by_cases h4 : k3 = k
      · subst h4
        simp [alget, aldel, ih, h3]
      · simp [alget, aldel, h4, ih]

theorem alget_foldl_aldel_ne (l : List (Nat × String)) (c : List (String × Nat))
    (key : String) (h : ∀ e ∈ l, e.2 ≠ key) :
    alget (l.foldl (fun c2 e => aldel c2 e.2) c) key = alget c key := by
  induction l generalizing c with
  | nil => simp
  | cons e rest ih =>
    have h1 : e.2 ≠ key := h e (by simp)
    rw [List.foldl_cons, ih _ fun e2 he => h e2 (by simp [he])]
    rw [alget_aldel, if_neg (Ne.symm h1)]

theorem alget_foldl_aldel_none (l : List (Nat × String)) (c : List (String × Nat))
    (key : String) (h : alget c key = none) :
    alget (l.foldl (fun c2 e => aldel c2 e.2) c) key = none := by
  induction l generalizing c with
  | nil => simpa
  | cons e rest ih =>
    rw [List.foldl_cons]
    exact ih _ (by rw [alget_aldel]; simp [h])

theorem alget_foldl_alset_not_mem (ps : List (String × String))
    (o : List (String × String)) (k : String) (h : k ∉ ps.map Prod.fst) :
    alget (ps.foldl (fun o2 kv => alset o2 kv.1 kv.2) o) k = alget o k := by
  induction ps generalizing o with
  | nil => simp
  | cons e rest ih =>
    simp only [List.map_cons, List.mem_cons, not_or] at h
    rw [List.foldl_cons, ih _ h.2, alget_alset_ne _ _ _ _ h.1]

theorem alget_foldl_alset_mem (ps : List (String × String))
    (o : List (String × String)) (k v : String)
    (hn : (ps.map Prod.fst).Nodup) (hm : (k, v) ∈ ps) :
    alget (ps.foldl (fun o2 kv => alset o2 kv.1 kv.2) o) k = some v := by
  induction ps generalizing o with
  | nil => simp at hm
  | cons e rest ih =>
    simp only [List.map_cons, List.nodup_cons] at hn
    rcases List.mem_cons.mp hm with h1 | h1
    · subst h1
      rw [List.foldl_cons]
      rw [alget_foldl_alset_not_mem _ _ _ (by simpa using hn.1)]
      exact alget_alset_self _ _ _
    · rw [List.foldl_cons]
      exact ih _ hn.2 h1

theorem responseToObjGo_ok_iff (ls : List String) (obj : List (String × String)) :
    (∃ r, responseToObjGo obj ls = .ok r) ↔
      ∀ line ∈ ls, (splitOnChar '=' line).length = 2 := by
  induction ls generalizing obj with
  | nil => simp [responseToObjGo]
  | cons line rest ih =>
    match hsp : splitOnChar '=' line with
    | [] => simp [responseToObjGo, hsp]
    | [k] => simp [responseToObjGo, hsp]
    | [k, v] => simpa [responseToObjGo, hsp] using ih (alset obj (toLowerStr k) v)
    | k :: v :: w :: t => simp [responseToObjGo, hsp]

theorem responseToObjGo_ok_eq (ls : List String) (obj r : List (String × String))
    (h : responseToObjGo obj ls = .ok r) :
    r = (ls.filterMap lineParse).foldl (fun o kv => alset o kv.1 kv.2) obj := by
  induction ls generalizing obj with
  | nil =>
    simp only [responseToObjGo, Except.ok.injEq] at h
    simp [h]
  | cons line rest ih =>
    match hsp : splitOnChar '=' line with
    | [] => simp [responseToObjGo, hsp] at h
    | [k] => simp [responseToObjGo, hsp] at h
    | [k, v] =>
      simp only [responseToObjGo, hsp] at h
      simpa [lineParse, hsp] using ih _ h
    | k :: v :: w :: t => simp [responseToObjGo, hsp] at h

/-- C8: for every input string, `responseToObj` succeeds exactly when every
newline-separated line splits into exactly two parts on `=`, in which case the
result maps each line's lowercased key to its value; in particular the empty
string, a line whose value contains `=` (base64 padding), and a line with no
`=` all make it throw. -/
theorem c8_responseToObj_spec :
    (∀ s, (∃ r, responseToObj s = .ok r) ↔
        ∀ line ∈ splitOnChar '\n' s, (splitOnChar '=' line).length = 2)
    ∧ (∀ s r, responseToObj s = .ok r → ((parsedPairs s).map Prod.fst).Nodup →
        ∀ kv ∈ parsedPairs s, alget r kv.1 = some kv.2)
    ∧ responseToObj ("") = .error ("expected list of pairs from server")
    ∧ responseToObj ("Auth=abc==") = .error ("expected list of pairs from server")
    ∧ responseToObj ("FOO") = .error ("expected list of pairs from server")
    ∧ responseToObj ("FOO=bar\nBAZ=foo") = .ok [("foo", "bar"), ("baz", "foo")] := by
  refine ⟨fun s => responseToObjGo_ok_iff _ _, fun s r h hn kv hm => ?_, rfl, rfl, rfl, rfl⟩
  rw [responseToObjGo_ok_eq _ _ _ h]
  exact alget_foldl_alset_mem _ _ _ _ hn hm

/-- C8 witness: a concrete two-line body parses and maps its lowercased keys,
and the success criterion holds for it. -/
theorem c8_witness :
    (∃ r, responseToObj ("SID=x\nAuth=abc") = .ok r)
    ∧ alget [("sid", "x"), ("auth", "abc")] ("auth") = some ("abc") := by
  constructor
  · exact (c8_responseToObj_spec.1 ("SID=x\nAuth=abc")).mpr (by decide)
  · exact c8_responseToObj_spec.2.1 ("SID=x\nAuth=abc") [("sid", "x"), ("auth", "abc")]
      rfl (by decide) ("auth", "abc") (by decide)

/-- C5: `login` fails with `LoginError` carrying the raw body on every non-200
response leaving the token unchanged, fails with the generic error when a 200
response parses but has no (or an empty, hence falsy) `auth` key leaving the
token unchanged, leaves the token unchanged on every non-success outcome, and
on success stores exactly the value of the `auth` key. -/
theorem c5_login_behavior :
    (∀ tok res, res.statusCode ≠ 200 → login tok res = (.loginError res.body, tok))
    ∧ (∀ tok res obj, res.statusCode = 200 →
        res.contentType = "text/plain; charset=utf-8" →
        responseToObj res.body = .ok obj → alget obj ("auth") = none →
        login tok res = (.genericError ("expected auth in server response"), tok))
    ∧ (∀ tok res out tok2, login tok res = (out, tok2) → out ≠ .success → tok2 = tok)
    ∧ (∀ tok res obj v, res.statusCode = 200 →
        res.contentType = "text/plain; charset=utf-8" →
        responseToObj res.body = .ok obj → alget obj ("auth") = some v → v ≠ "" →
        login tok res = (.success, some v)) := by
  refine ⟨fun tok res h => by simp [login, h], fun tok res obj h1 h2 h3 h4 => ?_,
    fun tok res out tok2 h hns => ?_, fun tok res obj v h1 h2 h3 h4 h5 => ?_⟩
  · simp [login, h1, h2, h3, h4]
  · unfold login at h
    split at h
    · injection h with ho ht; exact ht.symm
    · split at h
      · injection h with ho ht; exact ht.symm
      · split at h
        · injection h with ho ht; exact ht.symm
        · split at h
          · injection h with ho ht; exact ht.symm
          · split at h
            · injection h with ho ht; exact ht.symm
            · injection h with ho ht; exact absurd ho.symm hns
  · simp [login, h1, h2, h3, h4, h5]

/-- C5 witness: a 403 stub raises `LoginError` with the raw body and the
session stays unauthenticated; a 200 stub with an `auth` line authenticates
with exactly that token. -/
theorem c5_witness :
    login none ⟨403, "text/html", "Error=BadAuthentication"⟩ =
      (.loginError ("Error=BadAuthentication"), none)
    ∧ login none ⟨200, "text/plain; charset=utf-8", "SID=x\nAuth=xyz"⟩ =
      (.success, some ("xyz")) := by
  constructor
  · exact c5_login_behavior.1 none ⟨403, "text/html", "Error=BadAuthentication"⟩ (by decide)
  · exact c5_login_behavior.2.2.2 none ⟨200, "text/plain; charset=utf-8", "SID=x\nAuth=xyz"⟩
      [("sid", "x"), ("auth", "xyz")] ("xyz") rfl rfl rfl rfl (by decide)

/-- C10: construction throws exactly on an undefined username or password;
an undefined androidId is coerced to null before the check, so the
`Require Android ID` error can never fire and the client is created with a
null device id. -/
theorem c10_constructor :
    (∀ p a, googlePlayInit .undef p a = .error ("Require username"))
    ∧ (∀ u a, u ≠ .undef → googlePlayInit u .undef a = .error ("Require password"))
    ∧ (∀ u p, u ≠ .undef → p ≠ .undef → googlePlayInit u p .undef = .ok .null)
    ∧ (∀ u p a, googlePlayInit u p a ≠ .error ("Require Android ID")) := by
  refine ⟨fun p a => by simp [googlePlayInit], fun u a h => by simp [googlePlayInit, h],
    fun u p hu hp => by simp [googlePlayInit, hu, hp, jsOrNull, ctorFalsy],
    fun u p a => ?_⟩
  have haid : jsOrNull a ≠ .undef := by
    cases a with
    | undef => simp [jsOrNull, ctorFalsy]
    | null => simp [jsOrNull, ctorFalsy]
    | strv s =>
      simp only [jsOrNull, ctorFalsy]
      split <;> simp
  by_cases hu : u = .undef
  · simp [googlePlayInit, hu]
  · by_cases hp : p = .undef
    · simp [googlePlayInit, hu, hp]
    · simp [googlePlayInit, hu, hp, haid]

/-- C10 witness: a client constructed with both credentials and an undefined
androidId succeeds with a null device id, while a missing password still
throws. -/
theorem c10_witness :
    googlePlayInit (.strv ("user@gmail.com")) (.strv ("pw")) .undef = .ok .null
    ∧ googlePlayInit (.strv ("user@gmail.com")) .undef .undef =
      .error ("Require password") := by
  constructor
  · exact c10_constructor.2.2.1 _ _ (by decide) (by decide)
  · exact c10_constructor.2.1 _ .undef (by decide)

/-- C6: the cookie jar `downloadApk` actually attaches is empty for every
grant — the source passes `res.cookies` as the `url` parameter of
`_prepCookies` and leaves its `cookies` parameter undefined — while a
two-argument call as documented would have put every cookie of the grant in
the jar; the url and download-manager user agent of the issued GET are as
specified. -/
theorem c6_download_empty_jar :
    (downloadApkRequest ⟨"https://ex.com/app.apk", [⟨"MarketDA", "123"⟩]⟩).jar = ⟨[]⟩
    ∧ (downloadApkRequest ⟨"https://ex.com/app.apk", [⟨"MarketDA", "123"⟩]⟩).url =
      "https://ex.com/app.apk"
    ∧ (downloadApkRequest ⟨"https://ex.com/app.apk", [⟨"MarketDA", "123"⟩]⟩).userAgent =
      DOWNLOAD_MANAGER_USER_AGENT
    ∧ prepCookies (.strv ("https://ex.com/app.apk")) (.arrCookies [⟨"MarketDA", "123"⟩]) =
      ⟨[("MarketDA=123", .strv ("https://ex.com/app.apk"))]⟩
    ∧ (∀ grant : DownloadGrant, (downloadApkRequest grant).jar = ⟨[]⟩) := by
  refine ⟨by decide, by decide, by decide, by decide, fun grant => rfl⟩

theorem pipe_mem_cachedGetResolver (p : String) (q : List (String × String)) (d : DataPost) :
    '|' ∈ (cachedGetResolver p q d).data := by
  have h : '|' ∈ ("|" : String).data := by decide
  simp only [cachedGetResolver, String.data_append, List.mem_append]
  exact Or.inl (Or.inl (Or.inl (Or.inr h)))

theorem guard_miss (p : String) (q : List (String × String)) (d : DataPost) :
    cachedGetResolver p q d ∉ memoFnTruthyProps := by
  have hp := pipe_mem_cachedGetResolver p q d
  intro hm
  simp only [memoFnTruthyProps, List.mem_cons, List.not_mem_nil, or_false] at hm
  rcases hm with he | he
  · rw [he] at hp; revert hp; decide
  · rw [he] at hp; revert hp; decide

theorem seedPrefetchEntry_eq (st : EngineState) (url path qstr : String) (resp ttl : Nat)
    (hurl : splitAtLastQ url = some (path, qstr)) (httl : ttl ≠ 0) :
    seedPrefetchEntry st url resp ttl =
      { st with
        cache := alset st.cache (cachedGetResolver path (qsParse qstr) .fals) st.nextId
        futures := alset st.futures st.nextId (.ok resp)
        nextId := st.nextId + 1
        timers := st.timers ++
          [(st.now + ttl, cachedGetResolver path (qsParse qstr) .fals)] } := by
  simp [seedPrefetchEntry, hurl, guard_miss, httl]

/-- C1 (amended): with caching enabled every request shape is memoized, POSTs
included — the body string is part of the fingerprint, so a repeated call
with the same path, query and body returns the already-stored future from
`memoized.cache` and changes nothing: no second transport call happens,
whatever either network outcome would have been. -/
theorem c1_post_calls_memoized (st : EngineState) (p : String)
    (q : List (String × String)) (d : DataPost) (r r2 : Outcome) :
    memoCall (memoCall st p q d r).2 p q d r2 =
      ((memoCall st p q d r).1, (memoCall st p q d r).2) := by
  cases h : alget st.cache (cachedGetResolver p q d) with
  | some fid => simp [memoCall, h]
  | none => simp [memoCall, h, alget_alset_self]

/-- C1 counterexample: two identical `getDownloadInfo`-shaped POST operations
(`purchase` with body `ot=1&doc=com.example.app&vc=1`) do share a cache
entry: the second call returns the first call's future and the transport is
invoked only once, not once per call. -/
theorem c1_counterexample :
    ((memoCall initState ("purchase") []
        (.str ("ot=1&doc=com.example.app&vc=1")) (.ok 1)).2.transportCalls = 1)
    ∧ (memoCall (memoCall initState ("purchase") []
        (.str ("ot=1&doc=com.example.app&vc=1")) (.ok 1)).2 ("purchase") []
        (.str ("ot=1&doc=com.example.app&vc=1")) (.ok 2)).2.transportCalls = 1
    ∧ (memoCall (memoCall initState ("purchase") []
        (.str ("ot=1&doc=com.example.app&vc=1")) (.ok 1)).2 ("purchase") []
        (.str ("ot=1&doc=com.example.app&vc=1")) (.ok 2)).1 =
      (memoCall initState ("purchase") []
        (.str ("ot=1&doc=com.example.app&vc=1")) (.ok 1)).1 := by
  refine ⟨rfl, rfl, rfl⟩

/-- C2: the fingerprint `_tryHandlePrefetch` seeds (computed with `datapost =
false`, ending in `post=false`) differs from the fingerprint of the
corresponding GET (whose absent `datapost` renders as `post=undefined`), so
after the prefetch entry for `rec?doc=com.example.app&rt=1&c=3` is ingested a
`relatedApps("com.example.app")` call misses the cache and triggers a fresh
transport call with a fresh future instead of returning the seeded one. -/
theorem c2_prefetch_fingerprint_mismatch :
    (cachedGetResolver ("rec") (qsParse ("doc=com.example.app&rt=1&c=3")) .fals ≠
      cachedGetResolver ("rec") [("doc", "com.example.app"), ("rt", "1"), ("c", "3")] .undef)
    ∧ (alget (seedPrefetchEntry initState ("rec?doc=com.example.app&rt=1&c=3") 7 30000).futures
        0 = some (.ok 7))
    ∧ (alget (seedPrefetchEntry initState ("rec?doc=com.example.app&rt=1&c=3") 7 30000).cache
        (cachedGetResolver ("rec")
          [("doc", "com.example.app"), ("rt", "1"), ("c", "3")] .undef) = none)
    ∧ ((memoCall (seedPrefetchEntry initState ("rec?doc=com.example.app&rt=1&c=3") 7 30000)
        ("rec") [("doc", "com.example.app"), ("rt", "1"), ("c", "3")] .undef
        (.ok 9)).2.transportCalls = 1)
    ∧ (memoCall (seedPrefetchEntry initState ("rec?doc=com.example.app&rt=1&c=3") 7 30000)
        ("rec") [("doc", "com.example.app"), ("rt", "1"), ("c", "3")] .undef (.ok 9)).1 = 1 := by
  refine ⟨by decide, rfl, rfl, rfl, rfl⟩

/-- C3: ingesting the same prefetch url twice overwrites the existing cache
entry: the guard reads `memoizedExecuteRequestApi2[cacheKey]` — a property of
the function object, never a fingerprint — instead of
`memoizedExecuteRequestApi2.cache[cacheKey]`, so it never fires and the
second seed replaces the first entry's future (fid 0 wrapping response 7)
with a fresh one (fid 1 wrapping response 8). -/
theorem c3_seed_overwrites :
    (alget (seedPrefetchEntry initState ("rec?doc=com.example.app&rt=1&c=3") 7 30000).cache
      (cachedGetResolver ("rec") (qsParse ("doc=com.example.app&rt=1&c=3")) .fals) = some 0)
    ∧ (alget (seedPrefetchEntry initState
        ("rec?doc=com.example.app&rt=1&c=3") 7 30000).futures 0 = some (.ok 7))
    ∧ (alget (seedPrefetchEntry (seedPrefetchEntry initState
        ("rec?doc=com.example.app&rt=1&c=3") 7 30000)
        ("rec?doc=com.example.app&rt=1&c=3") 8 30000).cache
      (cachedGetResolver ("rec") (qsParse ("doc=com.example.app&rt=1&c=3")) .fals) = some 1)
    ∧ (alget (seedPrefetchEntry (seedPrefetchEntry initState
        ("rec?doc=com.example.app&rt=1&c=3") 7 30000)
        ("rec?doc=com.example.app&rt=1&c=3") 8 30000).futures 1 = some (.ok 8)) := by
  refine ⟨rfl, rfl, rfl, rfl⟩

/-- C7 counterexample: an entry created on a cache miss has no expiry timer —
no timer is scheduled at insertion and the entry is still present after any
amount of time (60000 ms here, double the default TTL). -/
theorem c7_counterexample :
    (alget (tick (memoCall initState ("details") [("doc", "com.example.app")] .undef
        (.ok 1)).2 60000).cache
      (cachedGetResolver ("details") [("doc", "com.example.app")] .undef) = some 0)
    ∧ (memoCall initState ("details") [("doc", "com.example.app")] .undef
        (.ok 1)).2.timers = [] := by
  refine ⟨rfl, rfl⟩

/-- C7 (amended): only prefetch-seeded entries get an expiry timer.  An entry
seeded by prefetch ingestion with a truthy TTL is present before the TTL
elapses and absent from the cache once it elapses (absent any older timer on
the same key), while `memoCall` never schedules a timer for the entries it
inserts on a miss. -/
theorem c7_ttl_amended (st : EngineState) (path qstr url : String) (resp ttl t : Nat)
    (hurl : splitAtLastQ url = some (path, qstr)) (httl : ttl ≠ 0)
    (hother : ∀ e ∈ st.timers, e.2 ≠ cachedGetResolver path (qsParse qstr) .fals) :
    (st.now ≤ t → t < st.now + ttl →
      alget (tick (seedPrefetchEntry st url resp ttl) t).cache
        (cachedGetResolver path (qsParse qstr) .fals) = some st.nextId)
    ∧ (st.now + ttl ≤ t →
      alget (tick (seedPrefetchEntry st url resp ttl) t).cache
        (cachedGetResolver path (qsParse qstr) .fals) = none)
    ∧ (∀ p2 q2 d2 r2, (memoCall st p2 q2 d2 r2).2.timers = st.timers) := by
  rw [seedPrefetchEntry_eq st url path qstr resp ttl hurl httl]
  refine ⟨fun h1 h2 => ?_, fun h1 => ?_, fun p2 q2 d2 r2 => ?_⟩
  · have hnf : ¬(st.now + ttl ≤ t) := by omega
    simp only [tick, List.filter_append]
    rw [show List.filter (fun e => decide (e.1 ≤ t))
        [(st.now + ttl, cachedGetResolver path (qsParse qstr) .fals)] = [] from by
      simp [hnf]]
    rw [List.append_nil]
    rw [alget_foldl_aldel_ne _ _ _ fun e he =>
      hother e (List.mem_of_mem_filter he)]
    exact alget_alset_self _ _ _
  · simp only [tick, List.filter_append]
    rw [show List.filter (fun e => decide (e.1 ≤ t))
        [(st.now + ttl, cachedGetResolver path (qsParse qstr) .fals)] =
        [(st.now + ttl, cachedGetResolver path (qsParse qstr) .fals)] from by
      simp [h1]]
    rw [List.foldl_append]
    simp only [List.foldl_cons, List.foldl_nil]
    rw [alget_aldel, if_pos rfl]
  · cases h : alget st.cache (cachedGetResolver p2 q2 d2) with
    | some fid => simp [memoCall, h]
    | none => simp [memoCall, h]

/-- C7 witness: a prefetch entry seeded at time 0 with the default 30000 ms
TTL is still present at 29999 ms and gone at 30000 ms. -/
theorem c7_witness :
    (alget (tick (seedPrefetchEntry initState ("rec?doc=com.example.app&rt=1&c=3") 7 30000)
        29999).cache
      (cachedGetResolver ("rec") (qsParse ("doc=com.example.app&rt=1&c=3")) .fals) = some 0)
    ∧ (alget (tick (seedPrefetchEntry initState ("rec?doc=com.example.app&rt=1&c=3") 7 30000)
        30000).cache
      (cachedGetResolver ("rec") (qsParse ("doc=com.example.app&rt=1&c=3")) .fals) = none) := by
  constructor
  · exact (c7_ttl_amended initState ("rec") ("doc=com.example.app&rt=1&c=3")
      ("rec?doc=com.example.app&rt=1&c=3") 7 30000 29999 rfl (by decide)
      (by simp [initState])).1 (by decide) (by decide)
  · exact (c7_ttl_amended initState ("rec") ("doc=com.example.app&rt=1&c=3")
      ("rec?doc=com.example.app&rt=1&c=3") 7 30000 30000 rfl (by decide)
      (by simp [initState])).2.1 (by decide)

/-- C9: a GET whose underlying transport call fails is memoized exactly like a
success — the rejected future is stored in `memoized.cache` under the
fingerprint before it settles, no timer is scheduled for it, and every later
identical call returns that same rejected future without a new transport
call. -/
theorem c9_failure_memoized (st : EngineState) (p : String) (q : List (String × String))
    (d : DataPost) (msg : String)
    (hmiss : alget st.cache (cachedGetResolver p q d) = none) :
    ((memoCall st p q d (.err msg)).2.transportCalls = st.transportCalls + 1)
    ∧ (alget (memoCall st p q d (.err msg)).2.cache (cachedGetResolver p q d) =
        some (memoCall st p q d (.err msg)).1)
    ∧ (alget (memoCall st p q d (.err msg)).2.futures (memoCall st p q d (.err msg)).1 =
        some (.err msg))
    ∧ ((memoCall st p q d (.err msg)).2.timers = st.timers)
    ∧ (∀ r2, memoCall (memoCall st p q d (.err msg)).2 p q d r2 =
        ((memoCall st p q d (.err msg)).1, (memoCall st p q d (.err msg)).2)) := by
  refine ⟨by simp [memoCall, hmiss], by simp [memoCall, hmiss, alget_alset_self],
    by simp [memoCall, hmiss, alget_alset_self], by simp [memoCall, hmiss],
    fun r2 => by simp [memoCall, hmiss, alget_alset_self]⟩

/-- C9 witness: a failed `details` GET from a fresh engine is cached — one
transport call, the rejected future stored with no timer, and the repeated
call returns the same rejected future and state. -/
theorem c9_witness :
    ((memoCall initState ("details") [("doc", "com.example.app")] .undef
        (.err ("HTTP 500"))).2.transportCalls = initState.transportCalls + 1)
    ∧ (alget (memoCall initState ("details") [("doc", "com.example.app")] .undef
        (.err ("HTTP 500"))).2.cache
        (cachedGetResolver ("details") [("doc", "com.example.app")] .undef) =
      some (memoCall initState ("details") [("doc", "com.example.app")] .undef
        (.err ("HTTP 500"))).1)
    ∧ (alget (memoCall initState ("details") [("doc", "com.example.app")] .undef
        (.err ("HTTP 500"))).2.futures
        (memoCall initState ("details") [("doc", "com.example.app")] .undef
          (.err ("HTTP 500"))).1 = some (.err ("HTTP 500")))
    ∧ ((memoCall initState ("details") [("doc", "com.example.app")] .undef
        (.err ("HTTP 500"))).2.timers = initState.timers)
    ∧ (∀ r2, memoCall (memoCall initState ("details") [("doc", "com.example.app")] .undef
        (.err ("HTTP 500"))).2 ("details") [("doc", "com.example.app")] .undef r2 =
        ((memoCall initState ("details") [("doc", "com.example.app")] .undef
          (.err ("HTTP 500"))).1,
         (memoCall initState ("details") [("doc", "com.example.app")] .undef
          (.err ("HTTP 500"))).2)) :=
  c9_failure_memoized initState ("details") [("doc", "com.example.app")] .undef
    ("HTTP 500") rfl

theorem char_toNat_inj {a b : Char} (h : a.toNat = b.toNat) : a = b := by
  cases a; cases b
  simp only [Char.toNat] at h
  congr 1
  exact UInt32.ext (by exact h)

theorem str_data_inj {a b : String} (h : a.data = b.data) : a = b := by
  cases a; cases b; exact congrArg String.mk h

theorem strLtB_asymm : ∀ {a b : List Char}, strLtB a b = true → strLtB b a = false := by
  intro a
  induction a with
  | nil =>
    intro b h
    cases b with
    | nil => simp [strLtB] at h
    | cons b1 bs => simp [strLtB]
  | cons a1 as ih =>
    intro b h
    cases b with
    | nil => simp [strLtB] at h
    | cons b1 bs =>
      simp only [strLtB] at h ⊢
      by_cases h1 : a1.toNat < b1.toNat
      · rw [if_neg (show ¬b1.toNat < a1.toNat by omega), if_pos h1]
      · rw [if_neg h1] at h
        by_cases h2 : b1.toNat < a1.toNat
        · rw [if_pos h2] at h; exact absurd h (by simp)
        · rw [if_neg h2] at h
          rw [if_neg h2, if_neg h1]
          exact ih h

theorem strLtB_trans : ∀ {a b c : List Char},
    strLtB a b = true → strLtB b c = true → strLtB a c = true := by
  intro a
  induction a with
  | nil =>
    intro b c hab hbc
    cases b with
    | nil => simp [strLtB] at hab
    | cons b1 bs =>
      cases c with
      | nil => simp [strLtB] at hbc
      | cons c1 cs => simp [strLtB]
  | cons a1 as ih =>
    intro b c hab hbc
    cases b with
    | nil => simp [strLtB] at hab
    | cons b1 bs =>
      cases c with
      | nil => simp [strLtB] at hbc
      | cons c1 cs =>
        simp only [strLtB] at hab hbc ⊢
        by_cases h1 : a1.toNat < b1.toNat
        · by_cases h2 : b1.toNat < c1.toNat
          · rw [if_pos (by omega)]
          · rw [if_neg h2] at hbc
            by_cases h3 : c1.toNat < b1.toNat
            · rw [if_pos h3] at hbc; exact absurd hbc (by simp)
            · rw [if_pos (by omega)]
        · rw [if_neg h1] at hab
          by_cases h2 : b1.toNat < a1.toNat
          · rw [if_pos h2] at hab; exact absurd hab (by simp)
          · rw [if_neg h2] at hab
            by_cases h3 : b1.toNat < c1.toNat
            · rw [if_pos (by omega)]
            · rw [if_neg h3] at hbc
              by_cases h4 : c1.toNat < b1.toNat
              · rw [if_pos h4] at hbc; exact absurd hbc (by simp)
              · rw [if_neg h4] at hbc
                rw [if_neg (by omega), if_neg (by omega)]
                exact ih hab hbc

theorem strLtB_eq_of_not : ∀ {a b : List Char},
    strLtB a b = false → strLtB b a = false → a = b := by
  intro a
  induction a with
  | nil =>
    intro b hab hba
    cases b with
    | nil => rfl
    | cons b1 bs => simp [strLtB] at hab
  | cons a1 as ih =>
    intro b hab hba
    cases b with
    | nil => simp [strLtB] at hba
    | cons b1 bs =>
      simp only [strLtB] at hab hba
      by_cases h1 : a1.toNat < b1.toNat
      · rw [if_pos h1] at hab; exact absurd hab (by simp)
      · rw [if_neg h1] at hab
        by_cases h2 : b1.toNat < a1.toNat
        · rw [if_pos h2] at hba; exact absurd hba (by simp)
        · rw [if_neg h2] at hab
          rw [if_neg h2, if_neg h1] at hba
          rw [char_toNat_inj (show a1.toNat = b1.toNat by omega), ih hab hba]

instance : IsTotal (String × String) keyLe := by
  constructor
  intro a b
  by_cases h : strLtB b.1.data a.1.data = false
  · exact Or.inl h
  · refine Or.inr (strLtB_asymm ?_)
    cases h2 : strLtB b.1.data a.1.data with
    | false => exact absurd h2 h
    | true => rfl

instance : IsTrans (String × String) keyLe := by
  constructor
  intro a b c hab hbc
  have hab2 : strLtB b.1.data a.1.data = false := hab
  have hbc2 : strLtB c.1.data b.1.data = false := hbc
  show strLtB c.1.data a.1.data = false
  cases hca : strLtB c.1.data a.1.data with
  | false => rfl
  | true =>
    exfalso
    cases hbc3 : strLtB b.1.data c.1.data with
    | true =>
      have := strLtB_trans hbc3 hca
      rw [this] at hab2
      exact absurd hab2 (by simp)
    | false =>
      have heq := strLtB_eq_of_not hbc3 hbc2
      rw [← heq] at hca
      rw [hca] at hab2
      exact absurd hab2 (by simp)

instance : IsAntisymm (String × String) keyLt := by
  constructor
  intro a b h1 h2
  exact absurd h2 (by unfold keyLt; rw [strLtB_asymm h1]; simp)

theorem sorted_keyLt_of_sorted_keyLe (l : List (String × String))
    (hs : List.Sorted keyLe l) (hn : (l.map Prod.fst).Nodup) :
    List.Sorted keyLt l := by
  have hp : l.Pairwise fun a b => a.1 ≠ b.1 := by
    rw [List.Nodup, List.pairwise_map] at hn
    exact hn
  refine (hs.and hp).imp ?_
  intro a b hab
  obtain ⟨hle, hne⟩ := hab
  have hle2 : strLtB b.1.data a.1.data = false := hle
  show strLtB a.1.data b.1.data = true
  cases h : strLtB a.1.data b.1.data with
  | true => rfl
  | false =>
    exact absurd (str_data_inj (strLtB_eq_of_not h hle2)) hne

theorem sortEntries_eq_of_perm (q1 q2 : List (String × String))
    (hperm : List.Perm q1 q2) (hnd : (q1.map Prod.fst).Nodup) :
    sortEntries q1 = sortEntries q2 := by
  have hnd2 : (q2.map Prod.fst).Nodup := (hperm.map Prod.fst).nodup hnd
  have hp1 : List.Perm (sortEntries q1) q1 := List.perm_insertionSort keyLe q1
  have hp2 : List.Perm (sortEntries q2) q2 := List.perm_insertionSort keyLe q2
  refine List.eq_of_perm_of_sorted (r := keyLt) (hp1.trans (hperm.trans hp2.symm)) ?_ ?_
  · exact sorted_keyLt_of_sorted_keyLe _ (List.sorted_insertionSort keyLe q1)
      ((hp1.map Prod.fst).symm.nodup hnd)
  · exact sorted_keyLt_of_sorted_keyLe _ (List.sorted_insertionSort keyLe q2)
      ((hp2.map Prod.fst).symm.nodup hnd2)

theorem hexpair : ∀ n : Nat, n < 32 →
    16 * hexVal (hexDigit (n / 16)) + hexVal (hexDigit (n % 16)) = n := by decide

theorem unesc1_esc (c : Char) (r : List Char) :
    unesc1 (escChar c ++ r) = some (c.toNat, r) := by
  by_cases h1 : c = '"'
  · subst h1; rfl
  by_cases h2 : c = '\\'
  · subst h2; rfl
  by_cases h3 : c = '\x08'
  · subst h3; rfl
  by_cases h4 : c = '\x0c'
  · subst h4; rfl
  by_cases h5 : c = '\n'
  · subst h5; rfl
  by_cases h6 : c = '\r'
  · subst h6; rfl
  by_cases h7 : c = '\t'
  · subst h7; rfl
  by_cases h8 : c.toNat < 32
  · have hesc : escChar c =
        ['\\', 'u', '0', '0', hexDigit (c.toNat / 16), hexDigit (c.toNat % 16)] := by
      simp [escChar, h1, h2, h3, h4, h5, h6, h7, h8]
    have hr : unesc1 (escChar c ++ r) =
        some (16 * hexVal (hexDigit (c.toNat / 16)) + hexVal (hexDigit (c.toNat % 16)), r) := by
      rw [hesc]; rfl
    rw [hr, hexpair c.toNat h8]
  · have hesc : escChar c = [c] := by
      simp [escChar, h1, h2, h3, h4, h5, h6, h7, h8]
    rw [hesc]
    show unesc1 (c :: r) = some (c.toNat, r)
    simp [unesc1, h1, h2]

theorem unesc1_quote (r : List Char) : unesc1 ('"' :: r) = none := rfl

theorem esc_det : ∀ (a b r1 r2 : List Char),
    escStr a ++ '"' :: r1 = escStr b ++ '"' :: r2 → a = b ∧ r1 = r2 := by
  intro a
  induction a with
  | nil =>
    intro b r1 r2 h
    cases b with
    | nil =>
      simp only [escStr, List.nil_append] at h
      injection h with _ h2
      exact ⟨rfl, h2⟩
    | cons c bs =>
      exfalso
      simp only [escStr, List.nil_append, List.append_assoc] at h
      have h2 := congrArg unesc1 h
      rw [unesc1_quote, unesc1_esc] at h2
      exact absurd h2 (by simp)
  | cons c as ih =>
    intro b r1 r2 h
    cases b with
    | nil =>
      exfalso
      simp only [escStr, List.nil_append, List.append_assoc] at h
      have h2 := congrArg unesc1 h
      rw [unesc1_quote, unesc1_esc] at h2
      exact absurd h2 (by simp)
    | cons c2 bs =>
      simp only [escStr, List.append_assoc] at h
      have h2 := congrArg unesc1 h
      rw [unesc1_esc, unesc1_esc] at h2
      simp only [Option.some.injEq, Prod.mk.injEq] at h2
      obtain ⟨hn, ht⟩ := h2
      obtain ⟨hab, hr⟩ := ih bs r1 r2 ht
      exact ⟨by rw [char_toNat_inj hn, hab], hr⟩

theorem quote_det (a b r1 r2 : List Char)
    (h : quoteL a ++ r1 = quoteL b ++ r2) : a = b ∧ r1 = r2 := by
  simp only [quoteL, List.cons_append, List.append_assoc, List.singleton_append] at h
  injection h with _ h2
  exact esc_det _ _ _ _ h2

theorem entry_det (e1 e2 : String × String) (r1 r2 : List Char)
    (h : entryL e1 ++ r1 = entryL e2 ++ r2) : e1 = e2 ∧ r1 = r2 := by
  simp only [entryL, List.append_assoc, List.cons_append] at h
  obtain ⟨hk, hrest⟩ := quote_det _ _ _ _ h
  injection hrest with _ hrest2
  obtain ⟨hv, hr⟩ := quote_det _ _ _ _ hrest2
  refine ⟨?_, hr⟩
  obtain ⟨k1, v1⟩ := e1
  obtain ⟨k2, v2⟩ := e2
  simp only at hk hv
  rw [str_data_inj hk, str_data_inj hv]

theorem entryL_ne_nil (e : String × String) : entryL e ≠ [] := by
  simp [entryL, quoteL]

theorem joinComma_entry_inj : ∀ (l1 l2 : List (String × String)),
    joinComma (l1.map entryL) = joinComma (l2.map entryL) → l1 = l2 := by
  intro l1
  induction l1 with
  | nil =>
    intro l2 h
    cases l2 with
    | nil => rfl
    | cons e2 l2t =>
      exfalso
      cases l2t with
      | nil =>
        simp only [List.map_nil, List.map_cons, joinComma] at h
        exact entryL_ne_nil e2 h.symm
      | cons f2 t2 =>
        simp only [List.map_nil, List.map_cons, joinComma] at h
        cases hc : entryL e2 with
        | nil => exact entryL_ne_nil e2 hc
        | cons x xs => rw [hc] at h; simp at h
  | cons e1 l1t ih =>
    intro l2 h
    cases l2 with
    | nil =>
      exfalso
      cases l1t with
      | nil =>
        simp only [List.map_nil, List.map_cons, joinComma] at h
        exact entryL_ne_nil e1 h
      | cons f1 t1 =>
        simp only [List.map_nil, List.map_cons, joinComma] at h
        cases hc : entryL e1 with
        | nil => exact entryL_ne_nil e1 hc
        | cons x xs => rw [hc] at h; simp at h
    | cons e2 l2t =>
      cases l1t with
      | nil =>
        cases l2t with
        | nil =>
          simp only [List.map_cons, List.map_nil, joinComma] at h
          rw [show entryL e1 = entryL e1 ++ [] from (List.append_nil _).symm,
            show entryL e2 = entryL e2 ++ [] from (List.append_nil _).symm] at h
          rw [(entry_det _ _ _ _ h).1]
        | cons f2 t2 =>
          exfalso
          simp only [List.map_cons, List.map_nil, joinComma] at h
          rw [show entryL e1 = entryL e1 ++ [] from (List.append_nil _).symm] at h
          obtain ⟨he, habs⟩ := entry_det _ _ _ _ h
          exact absurd habs.symm (by simp)
      | cons f1 t1 =>
        cases l2t with
        | nil =>
          exfalso
          simp only [List.map_cons, List.map_nil, joinComma] at h
          rw [show entryL e2 = entryL e2 ++ [] from (List.append_nil _).symm] at h
          obtain ⟨he, habs⟩ := entry_det _ _ _ _ h
          exact absurd habs (by simp)
        | cons f2 t2 =>
          simp only [List.map_cons, joinComma] at h
          obtain ⟨he, hj⟩ := entry_det _ _ _ _ h
          injection hj with _ hj2
          rw [he, ih (f2 :: t2) hj2]

theorem stableStringify_inj (q1 q2 : List (String × String))
    (h : stableStringify q1 = stableStringify q2) : sortEntries q1 = sortEntries q2 := by
  have h2 : '\x7b' :: (joinComma ((sortEntries q1).map entryL) ++ ['\x7d']) =
      '\x7b' :: (joinComma ((sortEntries q2).map entryL) ++ ['\x7d']) :=
    congrArg String.data h
  injection h2 with _ h3
  exact joinComma_entry_inj _ _ (List.append_cancel_right h3)

theorem str_app_assoc (a b c : String) : (a ++ b) ++ c = a ++ (b ++ c) := by
  apply str_data_inj
  simp [String.data_append, List.append_assoc]

theorem str_app_cancel_left (t a b : String) (h : t ++ a = t ++ b) : a = b := by
  apply str_data_inj
  have h2 := congrArg String.data h
  simp only [String.data_append] at h2
  exact List.append_cancel_left h2

theorem str_app_cancel_right (a b t : String) (h : a ++ t = b ++ t) : a = b := by
  apply str_data_inj
  have h2 := congrArg String.data h
  simp only [String.data_append] at h2
  exact List.append_cancel_right h2

theorem cgr_decomp (p : String) (q : List (String × String)) (d : DataPost) :
    cachedGetResolver p q d =
      p ++ ("|" ++ (stableStringify q ++ ("|post=" ++ d.render))) := by
  simp [cachedGetResolver, str_app_assoc]

/-- C4 (amended): the fingerprint is order-independent in the query (any two
orderings of the same key/value set give the same string), and it is
injective in the path (holding query and datapost fixed) and in the query up
to permutation (holding path and datapost fixed); in the datapost argument it
separates exactly the `util.format` renderings, so two datapost values
collide if and only if they render to the same string — in particular a POST
whose body renders as `undefined` is fingerprint-equal to the GET on the same
path, which is the one exception to the claimed POST/GET separation. -/
theorem c4_fingerprint_determinism :
    (∀ (p : String) (d : DataPost) (q1 q2 : List (String × String)), List.Perm q1 q2 →
      (q1.map Prod.fst).Nodup → cachedGetResolver p q1 d = cachedGetResolver p q2 d)
    ∧ (∀ p1 p2 q d, cachedGetResolver p1 q d = cachedGetResolver p2 q d → p1 = p2)
    ∧ (∀ p d q1 q2, (q1.map Prod.fst).Nodup → (q2.map Prod.fst).Nodup →
      cachedGetResolver p q1 d = cachedGetResolver p q2 d → List.Perm q1 q2)
    ∧ (∀ p q d1 d2, cachedGetResolver p q d1 = cachedGetResolver p q d2 ↔
      DataPost.render d1 = DataPost.render d2) := by
  refine ⟨?_, ?_, ?_, ?_⟩
  · intro p d q1 q2 hperm hnd
    simp only [cachedGetResolver, stableStringify]
    rw [sortEntries_eq_of_perm q1 q2 hperm hnd]
  · intro p1 p2 q d h
    rw [cgr_decomp, cgr_decomp] at h
    exact str_app_cancel_right _ _ _ h
  · intro p d q1 q2 hnd1 hnd2 h
    rw [cgr_decomp, cgr_decomp] at h
    have h2 := str_app_cancel_left _ _ _ h
    have h3 := str_app_cancel_left _ _ _ h2
    have h4 : stableStringify q1 = stableStringify q2 := str_app_cancel_right _ _ _ h3
    have h5 := stableStringify_inj _ _ h4
    have hp1 : List.Perm q1 (sortEntries q1) := (List.perm_insertionSort keyLe q1).symm
    have hp2 : List.Perm (sortEntries q2) q2 := List.perm_insertionSort keyLe q2
    have hp2b : List.Perm (sortEntries q1) q2 := by rw [h5]; exact hp2
    exact hp1.trans hp2b
  · intro p q d1 d2
    constructor
    · intro h
      rw [cgr_decomp, cgr_decomp] at h
      have h2 := str_app_cancel_left _ _ _ h
      have h3 := str_app_cancel_left _ _ _ h2
      have h4 := str_app_cancel_left _ _ _ h3
      exact str_app_cancel_left _ _ _ h4
    · intro h
      simp [cachedGetResolver, h]

/-- C4 counterexample: a POST whose body is the literal string `undefined`
is fingerprint-equal to the bodyless GET on the same path and query — the
`datapost` value is rendered into the key with `%s`, and an absent argument
renders as the same six characters — refuting the claim that a POST is never
fingerprint-equal to a GET on the same path. -/
theorem c4_counterexample :
    cachedGetResolver ("purchase") [] (.str ("undefined")) =
      cachedGetResolver ("purchase") [] .undef := rfl

/-- C4 witness: the order-independence, path-injectivity, query-injectivity
and datapost-rendering parts of the fingerprint theorem at concrete
inputs. -/
theorem c4_witness :
    (cachedGetResolver ("rec") [("doc", "a"), ("rt", "1")] .undef =
      cachedGetResolver ("rec") [("rt", "1"), ("doc", "a")] .undef)
    ∧ ("details" : String) = "details"
    ∧ List.Perm [("doc", "a")] [("doc", "a")]
    ∧ cachedGetResolver ("rec") [] .fals = cachedGetResolver ("rec") [] (.str ("false")) :=
  ⟨c4_fingerprint_determinism.1 ("rec") .undef _ _ (by decide) (by decide),
    c4_fingerprint_determinism.2.1 ("details") ("details") [] .undef rfl,
    c4_fingerprint_determinism.2.2.1 ("rec") .undef _ _ (by decide) (by decide) rfl,
    (c4_fingerprint_determinism.2.2.2 ("rec") [] .fals (.str ("false"))).mpr rfl⟩

end GPlay
